import Mathlib

/-!
# Verification of pyspedas file-caching, file-matching and calibration routines

Shallow embedding of three routines of this repository:

* `mms_get_state_data` (src/pyspedas/mms/mec_ascii/mms_get_state_data.py):
  query-window widening, remote-listing date filtering, local-cache freshness
  checks and the temp-file-then-copy download step;
* `mms_get_local_files` (src/pyspedas/mms/mms_get_local_files.py):
  date-range-driven pattern matching of local files;
* `elfin_load_epd` (src/pyspedas/elfin/epd/epd.py): calibrated-type
  normalization, unit mapping, 32- versus 16-sector variable selection and
  error behaviour.

Times are modelled as Unix epoch seconds (`Int`, no leap seconds, exactly as
POSIX timestamps behave), so `time_double`/`parse` of an already-given time is
the identity and `strftime('%Y-%m-%d')` followed by re-parsing is truncation to
the enclosing midnight.  Calendar conversions use the standard civil-from-days
algorithm, matching Python's proleptic Gregorian calendar.
-/

set_option autoImplicit false

namespace PySpedas

/-! ## Time and calendar model -/

/-- Truncation of an epoch time to the midnight that starts its UTC day.
Models `time_double(time_string(t, fmt='%Y-%m-%d'))`. -/
def dayStart (t : Int) : Int := t - t.emod 86400

/-- Civil date (year, month, day) of a day number counted from 1970-01-01,
the standard `civil_from_days` algorithm on the proleptic Gregorian
calendar (as used by Python's `datetime`/`strftime`). -/
def civilFromDays (z0 : Int) : Int × Int × Int :=
  let z := z0 + 719468
  let era := z.ediv 146097
  let doe := z - era * 146097
  let yoe := (doe - doe.ediv 1460 + doe.ediv 4380 - doe.ediv 146096).ediv 365
  let y := yoe + era * 400
  let doy := doe - (365 * yoe + yoe.ediv 4 - yoe.ediv 100)
  let mp := (5 * doy + 2).ediv 153
  let d := doy - (153 * mp + 2).ediv 5 + 1
  let m := mp + (if mp < 10 then 3 else -9)
  (y + (if m ≤ 2 then 1 else 0), m, d)

/-- Day number (counted from 1970-01-01) of a civil date, the standard
`days_from_civil` algorithm; inverse of `civilFromDays`. -/
def daysFromCivil (y0 m d : Int) : Int :=
  let y := y0 - (if m ≤ 2 then 1 else 0)
  let era := y.ediv 400
  let yoe := y - era * 400
  let doy := (153 * (m + (if m > 2 then -3 else 9)) + 2).ediv 5 + d - 1
  let doe := yoe * 365 + yoe.ediv 4 - yoe.ediv 100 + doy
  era * 146097 + doe - 719468

/-- Gregorian leap-year test. -/
def isLeapYear (y : Nat) : Bool :=
  (y % 4 = 0 && y % 100 ≠ 0) || y % 400 = 0

/-- Number of days in a month, as validated by Python's `datetime`
constructor (which `dateutil.parser.parse` calls). -/
def daysInMonth (y m : Nat) : Nat :=
  if m = 2 then (if isLeapYear y then 29 else 28)
  else if m = 4 ∨ m = 6 ∨ m = 9 ∨ m = 11 then 30
  else 31

/-- Numeric value of a digit string. -/
def digitsToNat (l : List Char) : Nat :=
  l.foldl (fun a c => a * 10 + (c.toNat - 48)) 0

/-- Epoch time of a validated calendar date-time, `none` when the fields do
not form a real date-time (Python's `datetime` raises `ValueError` there). -/
def epochOfFields (y mo d hh mi ss : Nat) : Option Int :=
  if 1 ≤ mo ∧ mo ≤ 12 ∧ 1 ≤ d ∧ d ≤ daysInMonth y mo ∧ hh ≤ 23 ∧ mi ≤ 59 ∧ ss ≤ 59 then
    some (86400 * daysFromCivil (Int.ofNat y) (Int.ofNat mo) (Int.ofNat d)
      + 3600 * Int.ofNat hh + 60 * Int.ofNat mi + Int.ofNat ss)
  else none

/-- Epoch time denoted by an all-digit date string, modelling
`dateutil.parser.parse` on the digit group captured from a file name:
8 digits are `YYYYMMDD`, 12 are `YYYYMMDDhhmm`, 14 are `YYYYMMDDhhmmss`;
other lengths (and impossible dates) make `parse` raise, modelled by `none`. -/
def parseDigits (ds : List Char) : Option Int :=
  if ds.length = 8 then
    epochOfFields (digitsToNat (ds.take 4)) (digitsToNat ((ds.drop 4).take 2))
      (digitsToNat (ds.drop 6)) 0 0 0
  else if ds.length = 12 then
    epochOfFields (digitsToNat (ds.take 4)) (digitsToNat ((ds.drop 4).take 2))
      (digitsToNat ((ds.drop 6).take 2)) (digitsToNat ((ds.drop 8).take 2))
      (digitsToNat (ds.drop 10)) 0
  else if ds.length = 14 then
    epochOfFields (digitsToNat (ds.take 4)) (digitsToNat ((ds.drop 4).take 2))
      (digitsToNat ((ds.drop 6).take 2)) (digitsToNat ((ds.drop 8).take 2))
      (digitsToNat ((ds.drop 10).take 2)) (digitsToNat (ds.drop 12))
  else none

/-- Zero-padded decimal rendering of a nonnegative integer, modelling
`strftime` fields `%Y` (width 4) and `%m`, `%d` (width 2). -/
def padNum (w : Nat) (n : Int) : String :=
  let s := toString n.toNat
  if s.length < w then String.mk (List.replicate (w - s.length) '0') ++ s else s

/-! ## ELFIN `elfin_load_epd` (src/pyspedas/elfin/epd/epd.py)

The `load` step (`pyspedas.elfin.load`) and `pytplot.get_data` are external to
the provided sources; the embedding takes their results as inputs: `tvars` is
the value returned by `load` (Python's `None` is `none`, a list is `some`) and
`getData v` is the NaN structure of `get_data(v).y`, a list whose entries are
`none` for NaN and `some q` for an ordinary float — the function only ever
inspects `np.isnan` of these values.  The postprocessing calls are recorded in
the result together with the arguments the claims are about. -/

/-- Result of `elfin_load_epd`: the early returns hand back the `load` result
unchanged; the L1/L2 constructors record the postprocessing call and its
arguments; `valueError` records the `raise ValueError(...)`. -/
inductive EpdResult where
  | loaded (tvars : Option (List String))
  | l1Post (tvars : List String) (type_ : String) (unit : String)
  | l2Post (tvarsInput : List String) (fluxtype : String) (res : String)
  | valueError (msg : String)
  deriving DecidableEq, Repr

/-- Whether a result is the `raise ValueError(...)` outcome. -/
def isValueError (r : EpdResult) : Bool :=
  match r with
  | .valueError _ => true
  | _ => false

/-- The `fluxtype` argument handed to `epd_l2_postprocessing`, when that call
is reached. -/
def l2FluxtypeOf (r : EpdResult) : Option String :=
  match r with
  | .l2Post _ fluxtype _ => some fluxtype
  | _ => none

/-- The `CALIBRATED_TYPE_UNITS` table of `elfin_load_epd`. -/
def CALIBRATED_TYPE_UNITS : List (String × String) :=
  [("raw", "counts/sector"), ("cps", "counts/s"),
   ("nflux", "#/(s-cm$^2$-str-MeV)"), ("eflux", "keV/(s-cm$^2$-str-MeV)")]

/-- Lookup in `CALIBRATED_TYPE_UNITS`; after normalization the key is always
present, so the default is never reached. -/
def unitsFor (t : String) : String :=
  ((CALIBRATED_TYPE_UNITS.find? (fun p => p.1 = t)).map (fun p => p.2)).getD ""

/-- Python truthiness of the `load` result: `None` and `[]` are falsy. -/
def pyTruthy (tvars : Option (List String)) : Bool :=
  match tvars with
  | none => false
  | some l => !l.isEmpty

/-- Substring containment, modelling Python's `'_32' in tvar`. -/
def containsSub (s pat : String) : Bool :=
  (List.range (s.data.length + 1)).any (fun i => pat.data.isPrefixOf (s.data.drop i))

/-- Helper for `pyReplace`: replaces every occurrence of `p :: ps` left to
right, as Python's `str.replace` does. -/
def replaceGo (p : Char) (ps rep : List Char) : List Char → List Char
  | [] => []
  | c :: rest =>
    if (p :: ps).isPrefixOf (c :: rest) then rep ++ replaceGo p ps rep (rest.drop ps.length)
    else c :: replaceGo p ps rep rest
termination_by l => l.length
decreasing_by
  · simp only [List.length_cons, List.length_drop]; omega
  · simp only [List.length_cons]; omega

/-- Python's `str.replace`, replacing all occurrences left to right (the
empty-pattern case never arises here: the source replaces `'_32'`). -/
def pyReplace (s pat rep : String) : String :=
  match pat.data with
  | [] => s
  | p :: ps => String.mk (replaceGo p ps rep.data s.data)

/-- Python's `list(set(tvars) - set(tvars_32) - set(tvars_16))`: the elements
of `tvars` outside both subtraction sets, each kept once.  Python's `set`
iteration order is modelled as first-occurrence order. -/
def pySetDiffList (tvars excl1 excl2 : List String) : List String :=
  (tvars.filter (fun x => !excl1.contains x && !excl2.contains x)).dedup

/-- The calibrated-type normalization as the spec states it: `'cal'`,
`'calibrated'`, and any string that is not one of the four table keys are
replaced by `'nflux'`.  The code's test is phrased through membership in
`CALIBRATED_TYPE_UNITS.keys()`; this definition follows the claim's wording
and is proved to agree with the code. -/
def elfinNormType (type_ : String) : String :=
  if type_ = "cal" ∨ type_ = "calibrated" ∨
      (type_ ≠ "raw" ∧ type_ ≠ "cps" ∧ type_ ≠ "nflux" ∧ type_ ≠ "eflux") then "nflux"
  else type_

/-- The 32-sector versus 16-sector variable selection as the claim states it:
when the loaded list has `'_32'` variables and the first one's data holds at
least one non-NaN value, the non-sector variables plus the `'_32'` variables;
otherwise the non-sector variables plus the names with `'_32'` removed. -/
def elfinL2InputClaimed (tv : List String) (getData : String → List (Option ℚ)) :
    List String :=
  let tvars_32 := tv.filter (fun tvar => containsSub tvar "_32")
  let tvars_16 := tvars_32.map (fun tvar => pyReplace tvar "_32" "")
  let tvars_other := pySetDiffList tv tvars_32 tvars_16
  match tvars_32 with
  | [] => tvars_other ++ tvars_16
  | v0 :: _ =>
    if (getData v0).any (fun x => x.isSome) then tvars_other ++ tvars_32
    else tvars_other ++ tvars_16

/-- The `elfin_load_epd` routine of src/pyspedas/elfin/epd/epd.py, from the
early returns after `load` to the choice of postprocessing call.  Arguments
that are passed through to the postprocessing calls unchanged and uninspected
(trange, probe, datatype, nspinsinsum, the PA/Espec options) are omitted from
the result records. -/
def elfin_load_epd (level type_ : String) (notplot downloadonly fullspin : Bool)
    (tvars : Option (List String)) (getData : String → List (Option ℚ)) : EpdResult :=
  if notplot || downloadonly then .loaded tvars
  else if !pyTruthy tvars then .loaded tvars
  else
    let tv := tvars.getD []
    let type1 :=
      if type_ = "cal" ∨ type_ = "calibrated" ∨
          ¬ (CALIBRATED_TYPE_UNITS.map (fun p => p.1)).contains type_ then "nflux"
      else type_
    if level = "l1" then .l1Post tv type1 (unitsFor type1)
    else if level = "l2" then
      let type2 := if ¬ (type1 = "nflux" ∨ type1 = "eflux") then "nflux" else type1
      let res := if fullspin = false then "hs" else "fs"
      let tvars_32 := tv.filter (fun tvar => containsSub tvar "_32")
      let tvars_16 := tvars_32.map (fun tvar => pyReplace tvar "_32" "")
      let tvars_other := pySetDiffList tv tvars_32 tvars_16
      let tvars_input :=
        match tvars_32 with
        | [] => tvars_other ++ tvars_16
        | v0 :: _ =>
          if (getData v0).any (fun x => x.isSome) then tvars_other ++ tvars_32
          else tvars_other ++ tvars_16
      .l2Post tvars_input type2 res
    else .valueError ("Unknown level: " ++ level)

/-! ## MMS `mms_get_state_data` (src/pyspedas/mms/mec_ascii/mms_get_state_data.py)

The trange entries are epoch times (`time_double` of the given strings or
numbers; both branches of the `type(trange[1]) == str` test compute the same
day truncation in this model).  The server's JSON listing is a list of
records with `file_name`, `file_size`, `start_date` and `end_date` (the date
strings modelled by their `time_double` values).  The local file system is a
partial map from paths to byte contents; `os.stat(...).st_size` is the length
of the content, and the decimal-string comparison
`str(os.stat(out_file).st_size) == str(file['file_size'])` coincides with
equality of the sizes as numbers. -/

/-- One record of the SDC ancillary-file JSON listing. -/
structure AncFile where
  file_name : String
  file_size : Nat
  start_date : Int
  end_date : Int
  deriving DecidableEq, Repr

/-- The local file system: a map from paths to file contents (byte lists). -/
def FileSys : Type := String → Option (List Nat)

/-- Writing a file: the path now holds the given content. -/
def fsWrite (fs : FileSys) (p : String) (c : List Nat) : FileSys :=
  fun q => if q = p then some c else fs q

/-- The cache path `os.sep.join([out_dir, file['file_name']])`. -/
def outPath (outDir name : String) : String := outDir ++ "/" ++ name

/-- `start_time = time_double(trange[0]) - 60*60*24` (line 29). -/
def mmsStateStartTime (t0 : Int) : Int := t0 - 86400

/-- `endtime_day = time_double(time_string(time_double(trange[1]), fmt='%Y-%m-%d'))`
(lines 34-37; both branches reduce to day truncation). -/
def mmsStateEndtimeDay (t1 : Int) : Int := dayStart t1

/-- `add_day` (lines 39-42): one extra day exactly when the end time lies
strictly after the midnight that starts its day. -/
def mmsStateAddDay (t1 : Int) : Int :=
  if t1 > mmsStateEndtimeDay t1 then 86400 else 0

/-- The epoch midnight named by `start_time_str = time_string(start_time, fmt='%Y-%m-%d')`
(line 44). -/
def mmsStateQueryStart (t0 : Int) : Int := dayStart (mmsStateStartTime t0)

/-- The epoch midnight named by `end_time_str = time_string(end_time+add_day, fmt='%Y-%m-%d')`
(line 45). -/
def mmsStateQueryEnd (t1 : Int) : Int := dayStart (t1 + mmsStateAddDay t1)

/-- Selection of `files_in_interval` from the JSON listing when
`level != 'def'` (lines 85-94): files starting after the end-of-range day or
ending before the widened start time are skipped; the first file passing both
tests is appended and the loop then executes `break`. -/
def mmsStateFilesInInterval (files : List AncFile) (startTime endtimeDay : Int) :
    List AncFile :=
  match files with
  | [] => []
  | f :: rest =>
    if f.start_date > endtimeDay then mmsStateFilesInInterval rest startTime endtimeDay
    else if startTime > f.end_date then mmsStateFilesInInterval rest startTime endtimeDay
    else [f]

/-- State of the download loop of lines 98-130: the file system plus the
accumulated `out_files` and the names a download request was issued for. -/
structure StateLoop where
  fs : FileSys
  out_files : List String
  downloads : List String

/-- One iteration of the loop of lines 98-130 on one listing record: if the
cache path exists with the server-reported size, it is appended to
`out_files` with no request; otherwise the payload is fetched and lands at
the cache path (the temp-file intermediate step is refined by
`mmsDownloadTrace` below).  `payload` gives the body served for a file name. -/
def mmsStateStep (outDir : String) (payload : String → List Nat)
    (st : StateLoop) (f : AncFile) : StateLoop :=
  let p := outPath outDir f.file_name
  if (st.fs p).map List.length = some f.file_size then
    { st with out_files := st.out_files ++ [p] }
  else
    { fs := fsWrite st.fs p (payload f.file_name),
      out_files := st.out_files ++ [p],
      downloads := st.downloads ++ [p] }

/-- The download loop of lines 98-130 over the selected listing records. -/
def mmsStateDownloadLoop (outDir : String) (payload : String → List Nat)
    (fs : FileSys) (files : List AncFile) : StateLoop :=
  files.foldl (mmsStateStep outDir payload) ⟨fs, [], []⟩

/-- The observable file-system states of one download (lines 114-130): the
payload is streamed into a fresh temporary file and, only when that write
completes, copied to the cache path.  `payload` is `.ok content` when
`copyfileobj` completes and `.error partialContent` when it raises after
writing a prefix; in the latter case the exception propagates and the `copy`
to the cache path never executes.  The returned Boolean records whether the
copy to the cache path happened. -/
def mmsDownloadTrace (fs : FileSys) (tmp out : String)
    (payload : Except (List Nat) (List Nat)) : List FileSys × Bool :=
  match payload with
  | .error partialContent => ([fs, fsWrite fs tmp partialContent], false)
  | .ok content =>
    let fs1 := fsWrite fs tmp content
    ([fs, fs1, fsWrite fs1 out content], true)

/-! ## MMS `mms_get_local_files` (src/pyspedas/mms/mms_get_local_files.py)

The walk of the local data directory (`os.walk`) is modelled by a list of
`(root, file)` pairs and `os.sep` by `'/'` (the POSIX branch; the `os.name ==
'nt'` branch only re-quotes the separator).  `parse(trange[i])` values are
given as epoch times.  The file-name regular expression

  `mms<probe>_<instrument>_<data_rate>_<level>(_)?.*_([0-9]\x7b8,14\x7d)_v(\d+).(\d+).(\d+).cdf`

is embedded by a matcher that mirrors Python's backtracking order: `(_)?` and
`.*` are greedy, the digit group tries 14 characters down to 8, `.` matches
any character except a newline, and `re.match` anchors only the start, so
trailing characters after `cdf` are allowed.  The matcher returns the digit
group that `matches.groups()[1]` captures. -/

/-- Greedy match of the version tail `(\d+).(\d+).(\d+).cdf` at the start of
`r` (the three dots are unescaped in the source, so each matches any
character except a newline).  Only acceptance matters: these groups are
never read. -/
def matchVersionTail (r : List Char) : Bool :=
  (List.range (r.length + 1)).any fun a =>
    decide (1 ≤ a) && decide (a ≤ r.length) && (r.take a).all Char.isDigit &&
    (match r.drop a with
     | [] => false
     | c1 :: r2 =>
       decide (c1 ≠ '\n') &&
       (List.range (r2.length + 1)).any fun b =>
         decide (1 ≤ b) && decide (b ≤ r2.length) && (r2.take b).all Char.isDigit &&
         (match r2.drop b with
          | [] => false
          | c2 :: r3 =>
            decide (c2 ≠ '\n') &&
            (List.range (r3.length + 1)).any fun c =>
              decide (1 ≤ c) && decide (c ≤ r3.length) && (r3.take c).all Char.isDigit &&
              (match r3.drop c with
               | [] => false
               | c3 :: r4 => decide (c3 ≠ '\n') && "cdf".data.isPrefixOf r4)))

/-- Match of `_([0-9]\x7b8,14\x7d)_v(\d+).(\d+).(\d+).cdf` at the start of
`r`, returning the captured digit group; the counted repetition is greedy, so
lengths are tried from 14 down to 8. -/
def matchDateTail (r : List Char) : Option (List Char) :=
  match r with
  | '_' :: r1 =>
    ([14, 13, 12, 11, 10, 9, 8] : List Nat).findSome? fun len =>
      if len ≤ r1.length ∧ (r1.take len).all Char.isDigit then
        match r1.drop len with
        | '_' :: 'v' :: r2 => if matchVersionTail r2 then some (r1.take len) else none
        | _ => none
      else none
  | _ => none

/-- Match of the whole file-name pattern at the start of `rest`, where `pre`
is the literal head `mms<probe>_<instrument>_<data_rate>_<level>`.  `(_)?`
greedily consumes an underscore first, `.*` greedily consumes the longest
newline-free stretch first, and the first combination whose tail matches
wins, exactly as Python's backtracking engine behaves.  Returns the digit
group of the first successful match. -/
def matchFileName (pre rest : List Char) : Option (List Char) :=
  if pre.isPrefixOf rest then
    let r0 := rest.drop pre.length
    let cands :=
      match r0 with
      | '_' :: r0' => [r0', r0]
      | _ => [r0]
    cands.findSome? fun r1 =>
      ((List.range (r1.length + 1)).reverse).findSome? fun i =>
        if (r1.take i).all (fun c => c ≠ '\n') then matchDateTail (r1.drop i) else none
  else none

/-- Match of the full-path pattern `re.escape(local_dir) + os.sep + file_name`
against `root + os.sep + file` (lines 62-70): the escaped directory is a
literal prefix and the remainder is matched by `matchFileName` — note `.*`
may consume `'/'`, so the remainder may span subdirectories of `local_dir`. -/
def pathDigits (pre : List Char) (dir : String) (e : String × String) :
    Option (List Char) :=
  let full := e.1 ++ "/" ++ e.2
  let dirP := dir ++ "/"
  if dirP.data.isPrefixOf full.data then
    matchFileName pre (full.data.drop dirP.data.length)
  else none

/-- One dict appended to `files_out` (line 75). -/
structure LocalFileEntry where
  file_name : String
  timetag : String
  full_name : String
  file_size : String
  deriving DecidableEq, Repr

/-- The dict built on line 75: `'timetag'` and `'file_size'` are left empty. -/
def mkLocalEntry (e : String × String) : LocalFileEntry :=
  ⟨e.2, "", e.1 ++ "/" ++ e.2, ""⟩

/-- The guard `this_file not in files_out` (line 74) compares the string
`this_file` with the dicts in `files_out`; Python's `==` between a `str` and
a `dict` is always `False`, so the membership test never succeeds. -/
def strInDictList (s : String) (l : List LocalFileEntry) : Bool :=
  l.any fun _ => false

/-- The inner loop over the walk of the data directory (lines 65-75) for one
day's `local_dir`: a matched path has its captured digit group parsed (a
`parse` failure raises, modelled by `none` for the whole loop) and is
appended when the parsed time lies in
`[parse(parse(trange[0]).strftime('%Y-%m-%d')), parse(trange[1]) - 1s]`. -/
def walkFiles (pre : List Char) (dir : String) (t0 t1 : Int) :
    List (String × String) → List LocalFileEntry → Option (List LocalFileEntry)
  | [], acc => some acc
  | e :: rest, acc =>
    match pathDigits pre dir e with
    | none => walkFiles pre dir t0 t1 rest acc
    | some ds =>
      match parseDigits ds with
      | none => none
      | some tm =>
        if dayStart t0 ≤ tm ∧ tm ≤ t1 - 1 then
          walkFiles pre dir t0 t1 rest
            (if strInDictList (e.1 ++ "/" ++ e.2) acc then acc else acc ++ [mkLocalEntry e])
        else walkFiles pre dir t0 t1 rest acc

/-- The outer loop `for date in days` (line 53), re-walking the whole data
directory for each day's directory pattern. -/
def walkDays (pre : List Char) (mkDir : Int → String) (t0 t1 : Int)
    (fsw : List (String × String)) :
    List Int → List LocalFileEntry → Option (List LocalFileEntry)
  | [], acc => some acc
  | d :: rest, acc =>
    match walkFiles pre (mkDir d) t0 t1 fsw acc with
    | none => none
    | some acc' => walkDays pre mkDir t0 t1 fsw rest acc'

/-- The day sequence `rrule(DAILY, dtstart=..., until=parse(trange[1])-timedelta(seconds=1))`
(line 46): midnights `dayStart t0 + k·86400` not exceeding `t1 - 1`. -/
def daysList (t0 t1 : Int) : List Int :=
  let d0 := dayStart t0
  let u := t1 - 1
  if u < d0 then []
  else (List.range (((u - d0).ediv 86400).toNat + 1)).map (fun k => d0 + 86400 * Int.ofNat k)

/-- The day directory of lines 54-57:
`os.sep.join([local_data_dir, 'mms'+probe, instrument, data_rate, level_and_dtype, %Y, %m (, %d)])`,
with the day component only for `data_rate == 'brst'`; `datatype` empty
models both `''` and `None`. -/
def localDir (localDataDir probe instrument data_rate level datatype : String)
    (day : Int) : String :=
  let ymd := civilFromDays (day.ediv 86400)
  let level_and_dtype := if datatype = "" then level else level ++ "/" ++ datatype
  let base := localDataDir ++ "/" ++ "mms" ++ probe ++ "/" ++ instrument ++ "/" ++
    data_rate ++ "/" ++ level_and_dtype ++ "/" ++ padNum 4 ymd.1 ++ "/" ++ padNum 2 ymd.2.1
  if data_rate = "brst" then base ++ "/" ++ padNum 2 ymd.2.2 else base

/-- First maximal digit run of length 8 to 14 in a character list. -/
def firstDigitRun (l : List Char) : Option (List Char) :=
  (List.range l.length).findSome? fun i =>
    if (i = 0 ∨ ¬ ((l[i-1]?).getD ' ').isDigit) ∧ ((l[i]?).getD ' ').isDigit then
      let run := (l.drop i).takeWhile Char.isDigit
      if 8 ≤ run.length ∧ run.length ≤ 14 then some run else none
    else none

/-- Modelled from the spec: the source imports `mms_files_in_interval` from
`.mms_files_in_interval`, a module of this repository that is not among the
provided sources.  The spec describes the repository's core as
"date-range-driven file-path pattern matching against local and remote file
listings"; accordingly the function is modelled as keeping exactly the listed
files whose file name embeds an 8-to-14-digit date-time lying within the
requested range. -/
def mms_files_in_interval (files : List LocalFileEntry) (t0 t1 : Int) :
    List LocalFileEntry :=
  files.filter fun f =>
    match (firstDigitRun f.file_name.data).bind parseDigits with
    | some tm => decide (dayStart t0 ≤ tm) && decide (tm ≤ t1 - 1)
    | none => false

/-- The `mms_get_local_files` routine of src/pyspedas/mms/mms_get_local_files.py:
build `files_out` over the day loop, restrict by `mms_files_in_interval`, and
return the `full_name` of every `files_out` entry whose `file_name` occurs in
the restricted list (lines 77-87).  `none` models an uncaught `parse`
exception. -/
def mms_get_local_files (localDataDir probe instrument data_rate level datatype : String)
    (fsw : List (String × String)) (t0 t1 : Int) : Option (List String) :=
  let pre := ("mms" ++ probe ++ "_" ++ instrument ++ "_" ++ data_rate ++ "_" ++ level).data
  match walkDays pre (localDir localDataDir probe instrument data_rate level datatype)
      t0 t1 fsw (daysList t0 t1) [] with
  | none => none
  | some files_out =>
    let files_in_interval := mms_files_in_interval files_out t0 t1
    let file_names := files_in_interval.map (fun f => f.file_name)
    some ((files_out.filter (fun f => file_names.contains f.file_name)).map
      (fun f => f.full_name))

/-- Basename of a path: the characters after the last separator. -/
def basenameOf (s : String) : String :=
  String.mk ((s.data.reverse.takeWhile (fun c => c ≠ '/')).reverse)

/-! ## Helper lemmas -/

/-- Shifting by whole days does not change the time of day. -/
theorem dayStart_add_mul (t k : Int) : dayStart (t + 86400 * k) = dayStart t + 86400 * k := by
  have h : (t + 86400 * k).emod 86400 = t.emod 86400 := Int.add_mul_emod_self_left t 86400 k
  unfold dayStart
  omega

/-- The vacuous membership test of line 74 never succeeds. -/
theorem strInDictList_false (s : String) (l : List LocalFileEntry) :
    strInDictList s l = false := by
  simp [strInDictList]

/-- Lookup of the four calibrated types in the unit table. -/
theorem unitsFor_cases (t : String)
    (h : t = "raw" ∨ t = "cps" ∨ t = "nflux" ∨ t = "eflux") :
    unitsFor t =
      (if t = "raw" then "counts/sector"
       else if t = "cps" then "counts/s"
       else if t = "nflux" then "#/(s-cm$^2$-str-MeV)"
       else "keV/(s-cm$^2$-str-MeV)") := by
  rcases h with rfl | rfl | rfl | rfl <;> rfl

/-- The key-membership test of line 148 spelled out over the four keys. -/
theorem elfin_keys_contains (type_ : String) :
    ((CALIBRATED_TYPE_UNITS.map (fun p => p.1)).contains type_ = true)
      ↔ (type_ = "raw" ∨ type_ = "cps" ∨ type_ = "nflux" ∨ type_ = "eflux") := by
  simp [CALIBRATED_TYPE_UNITS]

/-- The code's normalization of `type_` (line 148) agrees with the claim's
phrasing `elfinNormType`. -/
theorem elfin_type1_eq (type_ : String) :
    (if type_ = "cal" ∨ type_ = "calibrated" ∨
        ¬ (CALIBRATED_TYPE_UNITS.map (fun p => p.1)).contains type_ then "nflux"
     else type_) = elfinNormType type_ := by
  unfold elfinNormType
  by_cases h : (CALIBRATED_TYPE_UNITS.map (fun p => p.1)).contains type_ = true
  · have h4 := (elfin_keys_contains type_).mp h
    by_cases hc : type_ = "cal" ∨ type_ = "calibrated"
    · rcases hc with rfl | rfl <;> simp_all
    · have : ¬ (type_ ≠ "raw" ∧ type_ ≠ "cps" ∧ type_ ≠ "nflux" ∧ type_ ≠ "eflux") := by tauto
      simp only [h, not_true, or_false]
      rw [if_neg (by tauto), if_neg (by tauto)]
  · have h4 : ¬ (type_ = "raw" ∨ type_ = "cps" ∨ type_ = "nflux" ∨ type_ = "eflux") :=
      fun hh => h ((elfin_keys_contains type_).mpr hh)
    rw [if_pos (by tauto), if_pos (by tauto)]

/-- The normalized type is always one of the four table keys. -/
theorem elfinNormType_mem (type_ : String) :
    elfinNormType type_ = "raw" ∨ elfinNormType type_ = "cps" ∨
    elfinNormType type_ = "nflux" ∨ elfinNormType type_ = "eflux" := by
  unfold elfinNormType
  split_ifs with h
  · tauto
  · push_neg at h
    by_cases h1 : type_ = "raw"
    · tauto
    · by_cases h2 : type_ = "cps"
      · tauto
      · by_cases h3 : type_ = "nflux"
        · tauto
        · have := h.2.2 h1 h2 h3
          tauto

/-- Both branches of the cache check append the cache path to `out_files`. -/
theorem stateStep_out_files (outDir : String) (payload : String → List Nat)
    (st : StateLoop) (f : AncFile) :
    (mmsStateStep outDir payload st f).out_files
      = st.out_files ++ [outPath outDir f.file_name] := by
  simp only [mmsStateStep]
  split <;> rfl

/-- The step records a download request exactly when the cache check fails. -/
theorem stateStep_downloads (outDir : String) (payload : String → List Nat)
    (st : StateLoop) (f : AncFile) :
    (mmsStateStep outDir payload st f).downloads
      = (if (st.fs (outPath outDir f.file_name)).map List.length = some f.file_size
         then st.downloads else st.downloads ++ [outPath outDir f.file_name]) := by
  simp only [mmsStateStep]
  split <;> rfl

/-- The step touches the file system only on a failed cache check, and then
only at the cache path. -/
theorem stateStep_fs (outDir : String) (payload : String → List Nat)
    (st : StateLoop) (f : AncFile) :
    (mmsStateStep outDir payload st f).fs
      = (if (st.fs (outPath outDir f.file_name)).map List.length = some f.file_size
         then st.fs
         else fsWrite st.fs (outPath outDir f.file_name) (payload f.file_name)) := by
  simp only [mmsStateStep]
  split <;> rfl

/-- `out_files` only grows along the loop. -/
theorem stateLoop_out_mono (outDir : String) (payload : String → List Nat) :
    ∀ (files : List AncFile) (st : StateLoop) (x : String),
      x ∈ st.out_files → x ∈ (files.foldl (mmsStateStep outDir payload) st).out_files := by
  intro files
  induction files with
  | nil => intro st x hx; simpa using hx
  | cons f rest ih =>
    intro st x hx
    simp only [List.foldl_cons]
    apply ih
    rw [stateStep_out_files]
    exact List.mem_append_left _ hx

/-- `downloads` only grows along the loop. -/
theorem stateLoop_dl_mono (outDir : String) (payload : String → List Nat) :
    ∀ (files : List AncFile) (st : StateLoop) (x : String),
      x ∈ st.downloads → x ∈ (files.foldl (mmsStateStep outDir payload) st).downloads := by
  intro files
  induction files with
  | nil => intro st x hx; simpa using hx
  | cons f rest ih =>
    intro st x hx
    simp only [List.foldl_cons]
    apply ih
    rw [stateStep_downloads]
    split
    · exact hx
    · exact List.mem_append_left _ hx

/-- Every download recorded by the loop is either inherited or names the
cache path of one of the processed listing records. -/
theorem stateLoop_dl_sub (outDir : String) (payload : String → List Nat) :
    ∀ (files : List AncFile) (st : StateLoop) (x : String),
      x ∈ (files.foldl (mmsStateStep outDir payload) st).downloads →
      x ∈ st.downloads ∨ ∃ f ∈ files, x = outPath outDir f.file_name := by
  intro files
  induction files with
  | nil => intro st x hx; left; simpa using hx
  | cons f rest ih =>
    intro st x hx
    simp only [List.foldl_cons] at hx
    rcases ih (mmsStateStep outDir payload st f) x hx with h | ⟨g, hg, rfl⟩
    · rw [stateStep_downloads] at h
      revert h
      split
      · intro h; exact Or.inl h
      · intro h
        rcases List.mem_append.mp h with h1 | h1
        · exact Or.inl h1
        · exact Or.inr ⟨f, List.mem_cons_self f rest, List.mem_singleton.mp h1⟩
    · exact Or.inr ⟨g, List.mem_cons_of_mem f hg, rfl⟩

/-- C1 main induction: processing a listing whose cache paths are distinct
and agree with the initial file system appends every cache path to
`out_files`, and issues a download for a record exactly when its cache path
misses the initial file system or has a different size there. -/
theorem stateLoop_char (outDir : String) (payload : String → List Nat) (fs0 : FileSys) :
    ∀ (files : List AncFile) (st : StateLoop),
      (files.map (fun f => outPath outDir f.file_name)).Nodup →
      (∀ f ∈ files, st.fs (outPath outDir f.file_name) = fs0 (outPath outDir f.file_name)) →
      ∀ f ∈ files,
        outPath outDir f.file_name ∈ (files.foldl (mmsStateStep outDir payload) st).out_files ∧
        (outPath outDir f.file_name ∈ (files.foldl (mmsStateStep outDir payload) st).downloads ↔
          outPath outDir f.file_name ∈ st.downloads ∨
            (fs0 (outPath outDir f.file_name)).map List.length ≠ some f.file_size) := by
  intro files
  induction files with
  | nil => intro st _ _ f hf; exact absurd hf (List.not_mem_nil f)
  | cons f0 rest ih =>
    intro st hnd hfs f hf
    rw [List.map_cons, List.nodup_cons] at hnd
    have hp0 : st.fs (outPath outDir f0.file_name) = fs0 (outPath outDir f0.file_name) :=
      hfs f0 (List.mem_cons_self f0 rest)
    have hfs1 : ∀ g ∈ rest,
        (mmsStateStep outDir payload st f0).fs (outPath outDir g.file_name)
          = fs0 (outPath outDir g.file_name) := by
      intro g hg
      have hne : outPath outDir g.file_name ≠ outPath outDir f0.file_name := by
        intro he
        exact hnd.1 (he ▸ List.mem_map_of_mem (fun f => outPath outDir f.file_name) hg)
      rw [stateStep_fs]
      split
      · exact hfs g (List.mem_cons_of_mem f0 hg)
      · show fsWrite st.fs (outPath outDir f0.file_name) (payload f0.file_name)
            (outPath outDir g.file_name) = _
        unfold fsWrite
        rw [if_neg hne]
        exact hfs g (List.mem_cons_of_mem f0 hg)
    rcases List.mem_cons.mp hf with rfl | hfrest
    · constructor
      · simp only [List.foldl_cons]
        apply stateLoop_out_mono
        rw [stateStep_out_files]
        exact List.mem_append_right _ (List.mem_singleton_self _)
      · simp only [List.foldl_cons]
        constructor
        · intro hmem
          rcases stateLoop_dl_sub outDir payload rest (mmsStateStep outDir payload st f)
              _ hmem with h1 | ⟨g, hg, he⟩
          · rw [stateStep_downloads] at h1
            revert h1
            split
            · intro h1
              exact Or.inl h1
            · rename_i hcond
              intro h1
              rcases List.mem_append.mp h1 with h2 | _
              · exact Or.inl h2
              · rw [hp0] at hcond
                exact Or.inr hcond
          · exact absurd (he ▸ List.mem_map_of_mem (fun f => outPath outDir f.file_name) hg)
              hnd.1
        · intro h
          apply stateLoop_dl_mono
          rw [stateStep_downloads]
          rcases h with h | hcond
          · split
            · exact h
            · exact List.mem_append_left _ h
          · rw [hp0, if_neg hcond]
            exact List.mem_append_right _ (List.mem_singleton_self _)
    · have hres := ih (mmsStateStep outDir payload st f0) hnd.2 hfs1 f hfrest
      have hne : outPath outDir f.file_name ≠ outPath outDir f0.file_name := by
        intro he
        exact hnd.1 (he ▸ List.mem_map_of_mem (fun f => outPath outDir f.file_name) hfrest)
      constructor
      · simpa only [List.foldl_cons] using hres.1
      · simp only [List.foldl_cons]
        rw [hres.2]
        have hstep : outPath outDir f.file_name ∈ (mmsStateStep outDir payload st f0).downloads
            ↔ outPath outDir f.file_name ∈ st.downloads := by
          rw [stateStep_downloads]
          split
          · exact Iff.rfl
          · simp [hne]
        rw [hstep]

/-- Every entry produced by the inner walk loop is inherited from the
accumulator or stems from a walked file that matched the day's full-path
pattern with an in-range embedded date-time. -/
theorem walkFiles_subset (pre : List Char) (dir : String) (t0 t1 : Int) :
    ∀ (fsw : List (String × String)) (acc out : List LocalFileEntry),
      walkFiles pre dir t0 t1 fsw acc = some out →
      ∀ x ∈ out, x ∈ acc ∨ ∃ e ∈ fsw,
        (∃ ds tm, pathDigits pre dir e = some ds ∧ parseDigits ds = some tm ∧
          dayStart t0 ≤ tm ∧ tm ≤ t1 - 1) ∧ x = mkLocalEntry e := by
  intro fsw
  induction fsw with
  | nil =>
    intro acc out h x hx
    simp only [walkFiles, Option.some.injEq] at h
    subst h
    exact Or.inl hx
  | cons e rest ih =>
    intro acc out h x hx
    unfold walkFiles at h
    split at h
    · rcases ih acc out h x hx with h1 | ⟨e', he', hc, rfl⟩
      · exact Or.inl h1
      · exact Or.inr ⟨e', List.mem_cons_of_mem e he', hc, rfl⟩
    · rename_i ds hds
      split at h
      · exact absurd h (by simp)
      · rename_i tm htm
        split at h
        · rename_i hrange
          rw [strInDictList_false] at h
          simp only [Bool.false_eq_true, if_false] at h
          rcases ih _ out h x hx with h1 | ⟨e', he', hc, rfl⟩
          · rcases List.mem_append.mp h1 with h2 | h2
            · exact Or.inl h2
            · exact Or.inr ⟨e, List.mem_cons_self e rest,
                ⟨ds, tm, hds, htm, hrange.1, hrange.2⟩, List.mem_singleton.mp h2⟩
          · exact Or.inr ⟨e', List.mem_cons_of_mem e he', hc, rfl⟩
        · rcases ih acc out h x hx with h1 | ⟨e', he', hc, rfl⟩
          · exact Or.inl h1
          · exact Or.inr ⟨e', List.mem_cons_of_mem e he', hc, rfl⟩

/-- Every entry produced by the day loop stems, for some day of the range,
from a walked file matching that day's full-path pattern with an in-range
embedded date-time. -/
theorem walkDays_subset (pre : List Char) (mkDir : Int → String) (t0 t1 : Int)
    (fsw : List (String × String)) :
    ∀ (days : List Int) (acc out : List LocalFileEntry),
      walkDays pre mkDir t0 t1 fsw days acc = some out →
      ∀ x ∈ out, x ∈ acc ∨ ∃ d ∈ days, ∃ e ∈ fsw,
        (∃ ds tm, pathDigits pre (mkDir d) e = some ds ∧ parseDigits ds = some tm ∧
          dayStart t0 ≤ tm ∧ tm ≤ t1 - 1) ∧ x = mkLocalEntry e := by
  intro days
  induction days with
  | nil =>
    intro acc out h x hx
    simp only [walkDays, Option.some.injEq] at h
    subst h
    exact Or.inl hx
  | cons d restD ih =>
    intro acc out h x hx
    unfold walkDays at h
    split at h
    · exact absurd h (by simp)
    · rename_i acc' hacc'
      rcases ih acc' out h x hx with h1 | ⟨d', hd', e, he, hc, rfl⟩
      · rcases walkFiles_subset pre (mkDir d) t0 t1 fsw acc acc' hacc' x h1 with
          h2 | ⟨e, he, hc, rfl⟩
        · exact Or.inl h2
        · exact Or.inr ⟨d, List.mem_cons_self d restD, e, he, hc, rfl⟩
      · exact Or.inr ⟨d', List.mem_cons_of_mem d hd', e, he, hc, rfl⟩

/-! ## Claim theorems -/

/-- C5.  Query-window widening in `mms_get_state_data`: the query start date
is the calendar day of `trange[0]` minus one day, and the query end date is
the calendar day of `trange[1]` plus one additional day exactly when
`trange[1]` lies strictly after the midnight of its own day. -/
theorem mms_state_query_window (t0 t1 : Int) :
    mmsStateQueryStart t0 = dayStart t0 - 86400 ∧
    mmsStateQueryEnd t1 = dayStart t1 + (if t1 > dayStart t1 then 86400 else 0) := by
  constructor
  · have h : t0 - 86400 = t0 + 86400 * (-1) := by ring
    unfold mmsStateQueryStart mmsStateStartTime
    rw [h, dayStart_add_mul]
    ring
  · unfold mmsStateQueryEnd mmsStateAddDay mmsStateEndtimeDay
    by_cases h : t1 > dayStart t1
    · simp only [if_pos h]
      have h1 : t1 + 86400 = t1 + 86400 * 1 := by ring
      rw [h1, dayStart_add_mul]
      ring
    · simp only [if_neg h]
      norm_num

/-- C1.  Local-cache freshness check in `mms_get_state_data`: for every
record of the listing selected for the interval (with distinct cache paths),
the cache path is appended to the output file list; when a file already
exists at that path with the server-reported size no download request is
issued for it, and a download is issued exactly when the file is missing or
its size differs. -/
theorem mms_state_cache_freshness (outDir : String) (payload : String → List Nat)
    (fs0 : FileSys) (files : List AncFile)
    (hnd : (files.map (fun f => outPath outDir f.file_name)).Nodup) :
    ∀ f ∈ files,
      outPath outDir f.file_name ∈ (mmsStateDownloadLoop outDir payload fs0 files).out_files ∧
      ((fs0 (outPath outDir f.file_name)).map List.length = some f.file_size →
        outPath outDir f.file_name ∉ (mmsStateDownloadLoop outDir payload fs0 files).downloads) ∧
      (outPath outDir f.file_name ∈ (mmsStateDownloadLoop outDir payload fs0 files).downloads ↔
        (fs0 (outPath outDir f.file_name)).map List.length ≠ some f.file_size) := by
  intro f hf
  have h := stateLoop_char outDir payload fs0 files ⟨fs0, [], []⟩ hnd (fun _ _ => rfl) f hf
  refine ⟨h.1, ?_, ?_⟩
  · intro hsize hmem
    rcases h.2.mp hmem with h1 | h1
    · exact absurd h1 (List.not_mem_nil _)
    · exact h1 hsize
  · constructor
    · intro hmem
      rcases h.2.mp hmem with h1 | h1
      · exact absurd h1 (List.not_mem_nil _)
      · exact h1
    · intro hc
      exact h.2.mpr (Or.inr hc)

/-- C1 witness: a listing record cached with the matching size is loaded
from disk and triggers no download request. -/
theorem mms_state_cache_freshness_witness :
    "/d/a.cdf" ∈ (mmsStateDownloadLoop "/d" (fun _ => [1])
        (fun q => if q = "/d/a.cdf" then some [9, 9, 9] else none)
        [⟨"a.cdf", 3, 0, 0⟩]).out_files ∧
    "/d/a.cdf" ∉ (mmsStateDownloadLoop "/d" (fun _ => [1])
        (fun q => if q = "/d/a.cdf" then some [9, 9, 9] else none)
        [⟨"a.cdf", 3, 0, 0⟩]).downloads := by
  have h := mms_state_cache_freshness "/d" (fun _ => [1])
      (fun q => if q = "/d/a.cdf" then some [9, 9, 9] else none)
      [⟨"a.cdf", 3, 0, 0⟩] (by decide) ⟨"a.cdf", 3, 0, 0⟩ (List.mem_singleton_self _)
  have hsize : ((fun q => if q = "/d/a.cdf" then some [9, 9, 9] else none)
      (outPath "/d" "a.cdf") : Option (List Nat)).map List.length = some 3 := by decide
  have h2 := h.2.1 hsize
  exact ⟨h.1, by simpa [outPath] using h2⟩

/-- C3 counterexample.  With two listing records both overlapping the range,
the selection is not the set of all overlapping records: the loop executes
`break` after appending the first one, so the second overlapping record is
dropped. -/
theorem mms_state_interval_cex :
    mmsStateFilesInInterval
        [⟨"a.cdf", 0, 0, 1000000⟩, ⟨"b.cdf", 0, 0, 1000000⟩] 86400 259200
      ≠ ([⟨"a.cdf", 0, 0, 1000000⟩, ⟨"b.cdf", 0, 0, 1000000⟩] : List AncFile).filter
          (fun f => decide (f.start_date ≤ 259200) && decide (86400 ≤ f.end_date)) := by
  decide

/-- C3 (amended).  Date-range filtering of the remote listing for predicted
state data: when `level != 'def'`, the selection keeps at most one file — the
first file of the listing, in listing order, whose `start_date` is not after
the end-of-range day and whose `end_date` is not before the computed start
time — and is empty when no file overlaps. -/
theorem mms_state_interval_first_overlap (files : List AncFile) (st etd : Int) :
    mmsStateFilesInInterval files st etd =
      (files.find? (fun f => !decide (f.start_date > etd) && !decide (st > f.end_date))).toList := by
  induction files with
  | nil => rfl
  | cons f rest ih =>
    unfold mmsStateFilesInInterval
    by_cases h1 : f.start_date > etd
    · simp [h1, List.find?, ih]
    · by_cases h2 : st > f.end_date
      · simp [h1, h2, List.find?, ih]
      · simp [h1, h2, List.find?]

/-- C3 (amended) witness at a concrete listing: only the first overlapping
file is kept. -/
theorem mms_state_interval_first_overlap_witness :
    mmsStateFilesInInterval
        [⟨"c.cdf", 0, 300000, 1000000⟩, ⟨"d.cdf", 0, 0, 900000⟩] 86400 259200
      = [⟨"d.cdf", 0, 0, 900000⟩] := by
  rw [mms_state_interval_first_overlap]
  decide

/-- C10.  Atomic cache update on download in `mms_get_state_data`: the
payload is streamed in full into the temporary file while the cache path
still holds its old content, and only afterwards copied to the cache path;
when writing the payload to the temporary file fails, no state of the trace
changes the cache path. -/
theorem mms_state_download_atomic (fs : FileSys) (tmp out : String)
    (payload : Except (List Nat) (List Nat)) (hne : tmp ≠ out) :
    (∀ pc, payload = .error pc →
      (mmsDownloadTrace fs tmp out payload).2 = false ∧
      ∀ g ∈ (mmsDownloadTrace fs tmp out payload).1, g out = fs out) ∧
    (∀ c, payload = .ok c →
      ∃ fs1, (mmsDownloadTrace fs tmp out payload).1 = [fs, fs1, fsWrite fs1 out c] ∧
        fs1 tmp = some c ∧ fs1 out = fs out ∧ fsWrite fs1 out c out = some c) := by
  have hne' : out ≠ tmp := fun h => hne h.symm
  constructor
  · rintro pc rfl
    refine ⟨rfl, ?_⟩
    intro g hg
    simp only [mmsDownloadTrace, List.mem_cons, List.mem_singleton, List.not_mem_nil,
      or_false] at hg
    rcases hg with rfl | rfl
    · rfl
    · simp [fsWrite, hne']
  · rintro c rfl
    refine ⟨fsWrite fs tmp c, rfl, ?_, ?_, ?_⟩
    · simp [fsWrite]
    · simp [fsWrite, hne']
    · simp [fsWrite]

/-- C10 witness: a concrete failing download leaves the cache path unchanged
and a concrete successful one writes the temp file first, then the cache. -/
theorem mms_state_download_atomic_witness :
    (∀ g ∈ (mmsDownloadTrace (fun _ => none) "/tmp/t0" "/data/out.cdf" (.error [7])).1,
        g "/data/out.cdf" = none) ∧
    ∃ fs1, (mmsDownloadTrace (fun _ => none) "/tmp/t0" "/data/out.cdf" (.ok [1, 2])).1
        = [(fun _ => none), fs1, fsWrite fs1 "/data/out.cdf" [1, 2]] ∧
      fs1 "/tmp/t0" = some [1, 2] ∧ fs1 "/data/out.cdf" = none ∧
      fsWrite fs1 "/data/out.cdf" [1, 2] "/data/out.cdf" = some [1, 2] := by
  constructor
  · intro g hg
    exact ((mms_state_download_atomic (fun _ => none) "/tmp/t0" "/data/out.cdf"
      (.error [7]) (by decide)).1 [7] rfl).2 g hg
  · exact (mms_state_download_atomic (fun _ => none) "/tmp/t0" "/data/out.cdf"
      (.ok [1, 2]) (by decide)).2 [1, 2] rfl

/-- C7.  Determinism: the embedded routines are total functions of their
inputs (arguments, configuration, file-system walk and remote responses), so
two runs on the same inputs return identical results. -/
theorem pyspedas_deterministic
    (localDataDir probe instrument data_rate level datatype : String)
    (fsw : List (String × String)) (t0 t1 : Int)
    (elevel etype : String) (notplot downloadonly fullspin : Bool)
    (tvars : Option (List String)) (getData : String → List (Option ℚ)) :
    mms_get_local_files localDataDir probe instrument data_rate level datatype fsw t0 t1
      = mms_get_local_files localDataDir probe instrument data_rate level datatype fsw t0 t1 ∧
    elfin_load_epd elevel etype notplot downloadonly fullspin tvars getData
      = elfin_load_epd elevel etype notplot downloadonly fullspin tvars getData :=
  ⟨rfl, rfl⟩

/-- C8.  `elfin_load_epd` reaches `raise ValueError` exactly when the level
is neither `'l1'` nor `'l2'`, the load step returned a truthy (non-empty)
variable list, and neither `notplot` nor `downloadonly` is set; whenever
`notplot` or `downloadonly` is set or the load result is `None` or empty, the
load result is returned unchanged. -/
theorem elfin_epd_error_behaviour (level type_ : String)
    (notplot downloadonly fullspin : Bool) (tvars : Option (List String))
    (getData : String → List (Option ℚ)) :
    (isValueError (elfin_load_epd level type_ notplot downloadonly fullspin tvars getData) = true
      ↔ (level ≠ "l1" ∧ level ≠ "l2" ∧ pyTruthy tvars = true ∧
          notplot = false ∧ downloadonly = false)) ∧
    ((notplot = true ∨ downloadonly = true ∨ pyTruthy tvars = false) →
      elfin_load_epd level type_ notplot downloadonly fullspin tvars getData = .loaded tvars) := by
  cases notplot <;> cases downloadonly <;>
    simp only [elfin_load_epd, Bool.false_or, Bool.true_or, Bool.or_true, if_true,
      Bool.or_self, if_false, Bool.not_true, Bool.not_false]
  · cases h : pyTruthy tvars <;> simp only [Bool.not_true, Bool.not_false, if_true, if_false]
    · simp [isValueError]
    · by_cases hl1 : level = "l1"
      · simp [hl1, isValueError]
      · by_cases hl2 : level = "l2"
        · simp [hl2, hl1, isValueError]
        · simp [hl1, hl2, isValueError]
  · simp [isValueError]
  · simp [isValueError]
  · simp [isValueError]

/-- C8 witness: an unknown level with a truthy load result raises, and
`notplot` short-circuits to the unchanged load result. -/
theorem elfin_epd_error_behaviour_witness :
    isValueError (elfin_load_epd "l3" "nflux" false false false (some ["x"]) (fun _ => [])) = true ∧
    elfin_load_epd "l1" "nflux" true false false (some ["x"]) (fun _ => [])
      = .loaded (some ["x"]) := by
  constructor
  · exact (elfin_epd_error_behaviour "l3" "nflux" false false false (some ["x"])
      (fun _ => [])).1.mpr ⟨by decide, by decide, by decide, rfl, rfl⟩
  · exact (elfin_epd_error_behaviour "l1" "nflux" true false false (some ["x"])
      (fun _ => [])).2 (Or.inl rfl)

/-- C4.  Calibrated-type normalization and unit mapping in `elfin_load_epd`:
`'cal'`, `'calibrated'` and anything outside `'raw'/'cps'/'nflux'/'eflux'`
becomes `'nflux'`; for level `'l1'` the unit handed to L1 postprocessing is
the table entry for the resulting type; for level `'l2'` a resulting type
other than `'nflux'`/`'eflux'` is further coerced to `'nflux'`. -/
theorem elfin_epd_type_normalization (type_ : String) (fullspin : Bool)
    (v : String) (rest : List String) (getData : String → List (Option ℚ)) :
    (elfin_load_epd "l1" type_ false false fullspin (some (v :: rest)) getData
      = .l1Post (v :: rest) (elfinNormType type_)
        (if elfinNormType type_ = "raw" then "counts/sector"
         else if elfinNormType type_ = "cps" then "counts/s"
         else if elfinNormType type_ = "nflux" then "#/(s-cm$^2$-str-MeV)"
         else "keV/(s-cm$^2$-str-MeV)")) ∧
    (l2FluxtypeOf (elfin_load_epd "l2" type_ false false fullspin (some (v :: rest)) getData)
      = some (if elfinNormType type_ = "nflux" ∨ elfinNormType type_ = "eflux"
          then elfinNormType type_ else "nflux")) := by
  constructor
  · simp only [elfin_load_epd, pyTruthy, Bool.or_self, Bool.false_or, List.isEmpty_cons,
      Bool.not_false, if_false, if_true, Option.getD_some, elfin_type1_eq,
      Bool.false_eq_true, Bool.not_true]
    rw [unitsFor_cases (elfinNormType type_) (elfinNormType_mem type_)]
  · simp only [elfin_load_epd, pyTruthy, Bool.or_self, Bool.false_or, List.isEmpty_cons,
      Bool.not_false, if_false, if_true, Option.getD_some, elfin_type1_eq,
      Bool.false_eq_true, Bool.not_true, l2FluxtypeOf]
    norm_num
    split_ifs <;> tauto

/-- C6.  32-sector versus 16-sector variable selection for ELFIN L2: the
variable list handed to `epd_l2_postprocessing` is exactly the non-sector
variables plus the `'_32'` variables when `'_32'` variables exist and the
first one's data has at least one non-NaN value, and otherwise the
non-sector variables plus the corresponding names with `'_32'` removed
(`elfinL2InputClaimed` states that selection in the claim's words). -/
theorem elfin_epd_sector_selection (type_ : String) (fullspin : Bool) (v : String)
    (rest : List String) (getData : String → List (Option ℚ)) :
    ∃ fluxtype res,
      elfin_load_epd "l2" type_ false false fullspin (some (v :: rest)) getData
        = .l2Post (elfinL2InputClaimed (v :: rest) getData) fluxtype res := by
  simp only [elfin_load_epd, pyTruthy, Bool.or_self, List.isEmpty_cons, Bool.not_false,
    if_false, if_true, Option.getD_some, Bool.false_eq_true, elfinL2InputClaimed]
  norm_num
  exact ⟨_, _, rfl⟩

set_option maxHeartbeats 1000000 in
/-- C2 counterexample.  The pattern's `.*` may consume path separators and
`re.match` anchors only the start, so a file lying in a subdirectory of the
day directory whose own name does not match the pattern is still returned:
the run below returns a path whose basename fails the file-name pattern. -/
theorem mms_local_files_basename_cex :
    mms_get_local_files "/data" "1" "fgm" "srvy" "l2" ""
        [("/data/mms1/fgm/srvy/l2/1970/01/mms1_fgm_srvy_l2_x", "y_19700102_v1.0.0.cdf")]
        86400 172800
      = some ["/data/mms1/fgm/srvy/l2/1970/01/mms1_fgm_srvy_l2_x/y_19700102_v1.0.0.cdf"] ∧
    matchFileName ("mms" ++ "1" ++ "_" ++ "fgm" ++ "_" ++ "srvy" ++ "_" ++ "l2").data
        (basenameOf
          "/data/mms1/fgm/srvy/l2/1970/01/mms1_fgm_srvy_l2_x/y_19700102_v1.0.0.cdf").data
      = none :=
  ⟨by rfl, by rfl⟩

/-- C2 (amended).  Date-range-driven local file matching: every path
returned by `mms_get_local_files` is `root/file` for some walked pair and
some day of the range such that the full path — not necessarily the
basename, since `.*` may span subdirectories — matches the day-directory
pattern, and the captured date-time parses into
`[start of day of trange[0], trange[1] - 1s]`. -/
theorem mms_local_files_pattern (ldd probe instrument data_rate level datatype : String)
    (fsw : List (String × String)) (t0 t1 : Int) (l : List String) (p : String)
    (hres : mms_get_local_files ldd probe instrument data_rate level datatype fsw t0 t1
      = some l)
    (hp : p ∈ l) :
    ∃ d ∈ daysList t0 t1, ∃ e ∈ fsw, p = e.1 ++ "/" ++ e.2 ∧
      ∃ ds tm,
        pathDigits ("mms" ++ probe ++ "_" ++ instrument ++ "_" ++ data_rate ++ "_" ++ level).data
          (localDir ldd probe instrument data_rate level datatype d) e = some ds ∧
        parseDigits ds = some tm ∧ dayStart t0 ≤ tm ∧ tm ≤ t1 - 1 := by
  simp only [mms_get_local_files] at hres
  split at hres
  · exact absurd hres (by simp)
  · rename_i files_out hw
    rw [Option.some.injEq] at hres
    subst hres
    rcases List.mem_map.mp hp with ⟨f, hf, rfl⟩
    have hf' : f ∈ files_out := (List.mem_filter.mp hf).1
    rcases walkDays_subset _ _ t0 t1 fsw (daysList t0 t1) [] files_out hw f hf' with
      h0 | ⟨d, hd, e, he, ⟨ds, tm, hds, htm, h1, h2⟩, rfl⟩
    · exact absurd h0 (List.not_mem_nil f)
    · exact ⟨d, hd, e, he, rfl, ds, tm, hds, htm, h1, h2⟩

set_option maxHeartbeats 2000000 in
/-- C2 (amended) witness: a conventionally named file in the day directory
is returned and satisfies the pattern-and-range conclusion. -/
theorem mms_local_files_pattern_witness :
    ∃ d ∈ daysList 86400 172800,
      ∃ e ∈ [("/data/mms1/fgm/srvy/l2/1970/01", "mms1_fgm_srvy_l2_19700102_v1.0.0.cdf")],
        "/data/mms1/fgm/srvy/l2/1970/01/mms1_fgm_srvy_l2_19700102_v1.0.0.cdf"
          = e.1 ++ "/" ++ e.2 ∧
        ∃ ds tm,
          pathDigits ("mms" ++ "1" ++ "_" ++ "fgm" ++ "_" ++ "srvy" ++ "_" ++ "l2").data
            (localDir "/data" "1" "fgm" "srvy" "l2" "" d) e
            = some ds ∧
          parseDigits ds = some tm ∧ dayStart 86400 ≤ tm ∧ tm ≤ 172800 - 1 :=
  mms_local_files_pattern "/data" "1" "fgm" "srvy" "l2" ""
    [("/data/mms1/fgm/srvy/l2/1970/01", "mms1_fgm_srvy_l2_19700102_v1.0.0.cdf")]
    86400 172800
    ["/data/mms1/fgm/srvy/l2/1970/01/mms1_fgm_srvy_l2_19700102_v1.0.0.cdf"]
    "/data/mms1/fgm/srvy/l2/1970/01/mms1_fgm_srvy_l2_19700102_v1.0.0.cdf"
    (by rfl) (List.mem_singleton_self _)

set_option maxHeartbeats 1000000 in
/-- C9.  Running over a two-day range inside one month revisits the same
month directory and appends the same matching file twice: the dedup guard
`this_file not in files_out` compares a string with dicts and never fires,
so the returned list holds the same path twice. -/
theorem mms_local_files_duplicate :
    mms_get_local_files "/data" "1" "fgm" "srvy" "l2" ""
        [("/data/mms1/fgm/srvy/l2/1970/01", "mms1_fgm_srvy_l2_19700102_v1.0.0.cdf")]
        86400 259200
      = some ["/data/mms1/fgm/srvy/l2/1970/01/mms1_fgm_srvy_l2_19700102_v1.0.0.cdf",
              "/data/mms1/fgm/srvy/l2/1970/01/mms1_fgm_srvy_l2_19700102_v1.0.0.cdf"] ∧
    ¬ (["/data/mms1/fgm/srvy/l2/1970/01/mms1_fgm_srvy_l2_19700102_v1.0.0.cdf",
        "/data/mms1/fgm/srvy/l2/1970/01/mms1_fgm_srvy_l2_19700102_v1.0.0.cdf"] :
        List String).Nodup :=
  ⟨by rfl, by simp⟩

end PySpedas
